import Mathlib

/-!
# Verification of the good-listener cognition runtime

A shallow embedding, in Lean 4, of the core algorithms of the
good-listener backend (question detection, auto-answer cooldown gating,
VAD utterance segmentation, screen-stability gating, vector-memory id
assignment, importance pruning and deduplication, transcript dispatch),
together with theorems settling the specification claims about them.

Conventions:
* Wall-clock times, VAD probabilities and importance scores are modelled
  as rationals (`ℚ`); Python floats carry exact decimal constants here
  (0.5, 0.25, 0.92, …) so `ℚ` is a faithful carrier for every comparison
  the code performs.
* External collaborators (VAD model, OCR engine, STT model, Chroma
  vector store, LLM provider) are modelled as inputs: their outputs are
  parameters of the step functions, exactly the values the code reads
  from them.
* PCM sample data is an opaque type parameter `α`; the code never
  inspects sample values, only buffers them and measures lengths.
-/

namespace GoodListener

/-! ## Question detection (`app/services/monitor.py`, `is_question`)

The Python predicate trims the text, rejects length < 10, accepts a
trailing question mark, and otherwise matches the anchored
case-insensitive regex `^(who|what|...|tell me)\b`.  A regex
alternative followed by `\b` matches the head of the text iff the text
begins with the alternative (case-insensitively) and the following
character, if any, is not a word character; backtracking tries every
alternative, so the whole regex is an existential over the list. -/

/-- The apostrophe character (U+0027), used in the negated contractions. -/
def apostrophe : Char := Char.ofNat 39

/-- Build a negated contraction such as `won` + `'` + `t`. -/
def contraction (a b : String) : String := a ++ String.singleton apostrophe ++ b

/-- The alternatives of the `QUESTION_STARTERS` regex, in source order. -/
def questionStarters : List String :=
  ["who", "what", "where", "when", "why", "how", "can", "could", "would",
   "should", "is", "are", "do", "does", "did", "have", "has", "will",
   contraction "won" "t", contraction "isn" "t", contraction "aren" "t",
   contraction "don" "t", contraction "doesn" "t", contraction "didn" "t",
   contraction "haven" "t", contraction "hasn" "t",
   "was", "were", "which", "shall", "may", "might", "tell me"]

/-- A regex word character (`\w` on the ASCII texts at issue). -/
def wordChar (c : Char) : Bool := c.isAlphanum || c = '_'

/-- `matchStarter s cs` : the literal alternative `s` followed by `\b`
matches at the head of `cs`, case-insensitively. -/
def matchStarter : List Char → List Char → Bool
  | [], [] => true
  | [], c :: _ => !(wordChar c)
  | _ :: _, [] => false
  | a :: s, c :: cs => (c.toLower == a) && matchStarter s cs

/-- A whitespace character in the sense of `str.strip()` (ASCII range). -/
def isStripSpace (c : Char) : Bool :=
  c == ' ' || c == '\t' || c == '\n' || c == Char.ofNat 13 ||
  c == Char.ofNat 11 || c == Char.ofNat 12

/-- `str.strip()` on a character list. -/
def stripChars (cs : List Char) : List Char :=
  ((cs.dropWhile isStripSpace).reverse.dropWhile isStripSpace).reverse

/-- `text.endswith('?')` on a character list. -/
def endsWithQmark (cs : List Char) : Bool :=
  match cs.getLast? with
  | some c => c == '?'
  | none => false

/-- Embedding of `is_question`: strip, reject short texts, accept a
trailing `?`, otherwise try the starter alternatives. -/
def isQuestion (text : String) : Bool :=
  if (stripChars text.data).length < 10 then false
  else if endsWithQmark (stripChars text.data) then true
  else questionStarters.any fun s => matchStarter s.data (stripChars text.data)

example : isQuestion "What do you think about this approach?" = true := by decide
example : isQuestion "What?" = false := by decide
example : isQuestion "I like pizza" = false := by decide
example : isQuestion "Tell me about your day" = true := by decide
example : isQuestion "was it fun today" = true := by decide
example : isQuestion "whoever did this thing" = false := by decide

/-- The boundary test `\b` imposes after a literal alternative: the rest
of the text is empty or starts with a non-word character. -/
def boundaryOk : List Char → Bool
  | [] => true
  | c :: _ => !(wordChar c)

/-- The claim's reading of "begins, case-insensitively, with the starter
word `s`": the first `|s|` characters lowercase to `s` and a word
boundary follows. -/
def specBeginsWith (starter : String) (cs : List Char) : Bool :=
  (decide ((cs.take starter.length).map Char.toLower = starter.data)) &&
    boundaryOk (cs.drop starter.length)

/-- The interrogative starters enumerated by the claim: the fixed word
list plus the common negative contractions — without `was`/`were`. -/
def claimQuestionStarters : List String :=
  ["who", "what", "where", "when", "why", "how", "can", "could", "would",
   "should", "is", "are", "do", "does", "did", "have", "has", "will",
   "which", "shall", "may", "might", "tell me",
   contraction "won" "t", contraction "isn" "t", contraction "aren" "t",
   contraction "don" "t", contraction "doesn" "t", contraction "didn" "t",
   contraction "haven" "t", contraction "hasn" "t"]

/-- The claim's starter list amended by the two starters the code also
recognises, `was` and `were` — the minimal repair the counterexample
forces. -/
def amendedQuestionStarters : List String :=
  claimQuestionStarters ++ ["was", "were"]

/-- The question predicate exactly as the claim words it: on the
stripped text, reject length < 10, accept a trailing `?` or a starter
from the given list followed by a word boundary. -/
def claimIsQuestionWith (starters : List String) (text : String) : Bool :=
  (decide (10 ≤ (stripChars text.data).length)) &&
    (endsWithQmark (stripChars text.data) ||
      starters.any fun s => specBeginsWith s (stripChars text.data))

set_option maxRecDepth 4000 in
theorem matchStarter_iff (s cs : List Char) :
    matchStarter s cs = true ↔
      ((cs.take s.length).map Char.toLower = s ∧ boundaryOk (cs.drop s.length) = true) := by
  induction s generalizing cs with
  | nil =>
    cases cs <;> simp [matchStarter, boundaryOk]
  | cons a s ih =>
    cases cs with
    | nil => simp [matchStarter]
    | cons c cs' =>
      show ((c.toLower == a) && matchStarter s cs') = true ↔ _
      rw [Bool.and_eq_true]
      rw [ih]
      simp only [List.length_cons, List.take_succ_cons, List.drop_succ_cons, List.map_cons,
        List.cons.injEq, and_assoc, beq_iff_eq]

theorem specBeginsWith_eq_matchStarter (s : String) (cs : List Char) :
    specBeginsWith s cs = matchStarter s.data cs := by
  rw [Bool.eq_iff_iff, matchStarter_iff, specBeginsWith]
  rw [Bool.and_eq_true, decide_eq_true_eq]
  exact Iff.rfl

theorem starters_any_eq (p : String → Bool) :
    questionStarters.any p = amendedQuestionStarters.any p := by
  have h1 : questionStarters.all (fun s => decide (s ∈ amendedQuestionStarters)) = true := by
    decide
  have h2 : amendedQuestionStarters.all (fun s => decide (s ∈ questionStarters)) = true := by
    decide
  rw [Bool.eq_iff_iff]
  simp only [List.any_eq_true]
  constructor
  · rintro ⟨s, hs, hp⟩
    exact ⟨s, of_decide_eq_true (List.all_eq_true.mp h1 s hs), hp⟩
  · rintro ⟨s, hs, hp⟩
    exact ⟨s, of_decide_eq_true (List.all_eq_true.mp h2 s hs), hp⟩

/-- Claim C2, counterexample: the code's starter set also contains
`was` (and `were`), which the claim's exhaustive list omits, so on
`"was it fun today"` (16 chars, no `?`) the code answers `true` while
the predicate the claim describes answers `false`. -/
theorem question_detector_differs_on_was :
    isQuestion "was it fun today" = true ∧
      claimIsQuestionWith claimQuestionStarters "was it fun today" = false := by
  constructor
  · decide
  · decide

/-- Claim C2, amended: `is_question` agrees pointwise with the
predicate the claim describes once `was` and `were` are added to the
starter list: on the stripped text it rejects length < 10, accepts a
trailing `?`, and otherwise accepts exactly the texts beginning
case-insensitively with a listed starter followed by a word boundary.
Both sides are pure functions, so determinism is inherent. -/
theorem question_detector_amended (t : String) :
    isQuestion t = claimIsQuestionWith amendedQuestionStarters t := by
  unfold isQuestion claimIsQuestionWith
  by_cases h10 : (stripChars t.data).length < 10
  · rw [if_pos h10, decide_eq_false (Nat.not_le.mpr h10), Bool.false_and]
  · rw [if_neg h10, decide_eq_true (Nat.not_lt.mp h10), Bool.true_and]
    by_cases hq : endsWithQmark (stripChars t.data) = true
    · rw [if_pos hq, hq, Bool.true_or]
    · rw [if_neg hq, (Bool.not_eq_true _).mp hq, Bool.false_or, ← starters_any_eq]
      have hfun : (fun s => specBeginsWith s (stripChars t.data)) =
          (fun s => matchStarter s.data (stripChars t.data)) :=
        funext fun s => specBeginsWith_eq_matchStarter s _
      rw [hfun]

/-! ## Auto-answer controller (`app/main.py`, `handle_question_detected`)

Module state: `_last_auto_answer_time` (initially `0`) and the cooldown
constant `10.0`.  On a detected question the handler returns at once if
no WebSocket subscriber is connected, returns if the cooldown has not
elapsed, and otherwise records the trigger time, builds the context,
and emits `auto_start`, the LLM stream, and `auto_done` frames.  The
monitor reads (recent transcript, latest screen text) and the LLM's
token stream are inputs of each step. -/

/-- Frames and external calls the handler can produce, in order. -/
inductive AAEvent where
  | autoStart (question : String)
  | llmAnalyze (context : String) (question : String)
  | autoChunk (question : String) (content : String)
  | autoDone (question : String)
  deriving DecidableEq, Repr

/-- One detected question, with everything the handler reads from its
environment at that moment. -/
structure AAInput where
  now : ℚ
  connections : ℕ
  question : String
  transcript : String
  screenText : String
  chunks : List String
  deriving DecidableEq, Repr

/-- `_auto_answer_cooldown = 10.0` seconds. -/
def autoAnswerCooldown : ℚ := 10

/-- Context assembly: the transcript section if non-empty, the screen
section (truncated to 2000 chars) if non-empty, joined by blank lines;
`"No context available."` when both are empty. -/
def buildContext (transcript screenText : String) : String :=
  let parts :=
    (if transcript ≠ "" then ["RECENT CONVERSATION:\n" ++ transcript] else []) ++
    (if screenText ≠ "" then ["SCREEN TEXT:\n" ++ screenText.take 2000] else [])
  if "\n\n".intercalate parts = "" then "No context available."
  else "\n\n".intercalate parts

/-- Embedding of `handle_question_detected`: returns the new
`_last_auto_answer_time` and the events emitted. -/
def handleQuestionDetected (lastFired : ℚ) (i : AAInput) : ℚ × List AAEvent :=
  if i.connections = 0 then (lastFired, [])
  else if i.now - lastFired < autoAnswerCooldown then (lastFired, [])
  else
    (i.now,
      AAEvent.autoStart i.question ::
      AAEvent.llmAnalyze (buildContext i.transcript i.screenText) i.question ::
      (i.chunks.map fun c => AAEvent.autoChunk i.question c) ++
      [AAEvent.autoDone i.question])

/-- Run the handler over a sequence of detected questions, producing
each step's wall time and emitted events. -/
def runAutoAnswer : ℚ → List AAInput → List (ℚ × List AAEvent)
  | _, [] => []
  | lastFired, i :: is =>
    (i.now, (handleQuestionDetected lastFired i).2) ::
      runAutoAnswer (handleQuestionDetected lastFired i).1 is

/-- Whether an `auto_start` frame is among the emitted events. -/
def emitsAutoStart (evs : List AAEvent) : Bool :=
  evs.any fun e =>
    match e with
    | .autoStart _ => true
    | _ => false

/-- The wall times of the steps that emitted `auto_start`. -/
def autoStartTimes (lastFired : ℚ) (inputs : List AAInput) : List ℚ :=
  ((runAutoAnswer lastFired inputs).filter fun p => emitsAutoStart p.2).map Prod.fst

theorem autoStartTimes_cons (lastFired : ℚ) (i : AAInput) (is : List AAInput) :
    autoStartTimes lastFired (i :: is) =
      if emitsAutoStart (handleQuestionDetected lastFired i).2
      then i.now :: autoStartTimes (handleQuestionDetected lastFired i).1 is
      else autoStartTimes (handleQuestionDetected lastFired i).1 is := by
  simp only [autoStartTimes, runAutoAnswer, List.filter_cons]
  split <;> simp

theorem handle_fired_iff (lastFired : ℚ) (i : AAInput) :
    emitsAutoStart (handleQuestionDetected lastFired i).2 = true ↔
      i.connections ≠ 0 ∧ lastFired + autoAnswerCooldown ≤ i.now := by
  unfold handleQuestionDetected
  by_cases hc : i.connections = 0
  · simp [hc, emitsAutoStart]
  · by_cases ht : i.now - lastFired < autoAnswerCooldown
    · simp only [hc, if_false, ht, if_true, if_neg, if_pos]
      simp [emitsAutoStart, hc]
      linarith
    · simp only [hc, if_false, ht, if_true, if_neg, if_pos]
      simp [emitsAutoStart, hc]
      linarith

theorem handle_not_fired_state (lastFired : ℚ) (i : AAInput)
    (h : emitsAutoStart (handleQuestionDetected lastFired i).2 = false) :
    (handleQuestionDetected lastFired i).1 = lastFired := by
  unfold handleQuestionDetected at h ⊢
  by_cases hc : i.connections = 0
  · simp [hc]
  · by_cases ht : i.now - lastFired < autoAnswerCooldown
    · simp [hc, ht]
    · simp [hc, ht, emitsAutoStart] at h

theorem handle_fired_state (lastFired : ℚ) (i : AAInput)
    (h : emitsAutoStart (handleQuestionDetected lastFired i).2 = true) :
    (handleQuestionDetected lastFired i).1 = i.now := by
  rw [handle_fired_iff] at h
  unfold handleQuestionDetected
  rw [if_neg h.1,
    if_neg (not_lt.mpr (by linarith [h.2] : autoAnswerCooldown ≤ i.now - lastFired))]

theorem autoStartTimes_spaced (inputs : List AAInput) (lastFired : ℚ) :
    (autoStartTimes lastFired inputs).Pairwise
      (fun a b => a + autoAnswerCooldown ≤ b) ∧
    ∀ t ∈ autoStartTimes lastFired inputs, lastFired + autoAnswerCooldown ≤ t := by
  induction inputs generalizing lastFired with
  | nil => simp [autoStartTimes, runAutoAnswer]
  | cons i is ih =>
    rw [autoStartTimes_cons]
    cases hf : emitsAutoStart (handleQuestionDetected lastFired i).2 with
    | false =>
      rw [if_neg (by simp : ¬ (false = true))]
      rw [handle_not_fired_state lastFired i hf]
      exact ih lastFired
    | true =>
      rw [if_pos rfl]
      rw [handle_fired_state lastFired i hf]
      obtain ⟨hpair, hbound⟩ := ih i.now
      have hstep : lastFired + autoAnswerCooldown ≤ i.now :=
        ((handle_fired_iff lastFired i).mp hf).2
      refine ⟨List.pairwise_cons.mpr ⟨fun t ht => ?_, hpair⟩, ?_⟩
      · have := hbound t ht
        have hcool : (0 : ℚ) ≤ autoAnswerCooldown := by norm_num [autoAnswerCooldown]
        linarith
      · intro t ht
        rcases List.mem_cons.mp ht with rfl | hmem
        · exact hstep
        · have := hbound t hmem
          have hcool : (0 : ℚ) ≤ autoAnswerCooldown := by norm_num [autoAnswerCooldown]
          linarith

/-- Claim C1 (confirmed): with no subscriber the handler returns with
state unchanged and emits nothing — in particular no `llmAnalyze` call;
an `auto_start` is emitted only when a subscriber exists and the
cooldown (10 s) has elapsed since the last trigger; and along any run
from the initial state the `auto_start` emission times are pairwise at
least `cooldown_seconds` apart. -/
theorem auto_answer_cooldown_gating :
    (∀ (lastFired : ℚ) (i : AAInput), i.connections = 0 →
        handleQuestionDetected lastFired i = (lastFired, [])) ∧
    (∀ (lastFired : ℚ) (i : AAInput),
        emitsAutoStart (handleQuestionDetected lastFired i).2 = true →
        i.connections ≠ 0 ∧ lastFired + autoAnswerCooldown ≤ i.now) ∧
    ∀ inputs : List AAInput,
      (autoStartTimes 0 inputs).Pairwise fun a b => a + autoAnswerCooldown ≤ b := by
  refine ⟨?_, ?_, ?_⟩
  · intro lastFired i h
    unfold handleQuestionDetected
    simp [h]
  · intro lastFired i h
    exact (handle_fired_iff lastFired i).mp h
  · intro inputs
    exact (autoStartTimes_spaced inputs 0).1

/-- Witness for C1: a question at `t = 3` with zero subscribers is
skipped silently; a question at `t = 12` with one subscriber fires,
which forces `0 + 10 ≤ 12`. -/
theorem auto_answer_cooldown_gating_witness :
    handleQuestionDetected 0 ⟨3, 0, "q", "", "", []⟩ = (0, []) ∧
      ((⟨12, 1, "q", "", "", []⟩ : AAInput).connections ≠ 0 ∧
        (0 : ℚ) + autoAnswerCooldown ≤ 12) :=
  ⟨auto_answer_cooldown_gating.1 0 ⟨3, 0, "q", "", "", []⟩ rfl,
   auto_answer_cooldown_gating.2.1 0 ⟨12, 1, "q", "", "", []⟩
     ((handle_fired_iff 0 ⟨12, 1, "q", "", "", []⟩).mpr
       ⟨by decide, by norm_num [autoAnswerCooldown]⟩)⟩

/-! ## Device listener VAD segmentation (`app/services/audio.py`, `DeviceListener`)

`_process` drains the VAD buffer in 512-sample chunks; for each chunk
the Silero model yields a speech probability, and the body at lines
74-86 updates `is_speaking` / `silence_chunks` / `speech_buffer` and
possibly emits the buffered utterance.  We model that loop body at
chunk granularity: samples are an opaque type `α`, and the model's
probability for each chunk is an input.  Defaults from `__init__`:
`max_silence_chunks = 30`, `vad_threshold = 0.5`, sample rate 16000. -/

/-- The mutable listener fields the chunk loop touches. -/
structure ListenerState (α : Type) where
  speechBuffer : List α
  isSpeaking : Bool
  silenceChunks : ℕ
  deriving Repr

/-- `self.max_silence_chunks = 30  # ~1 sec`. -/
def maxSilenceChunks : ℕ := 30

/-- `self.vad_threshold = 0.5`. -/
def vadThreshold : ℚ := 1/2

/-- The listener's sample rate (listeners are created with 16000). -/
def listenerSampleRate : ℕ := 16000

/-- Fresh listener: empty buffer, idle, no silence counted. -/
def initListener {α : Type} : ListenerState α := ⟨[], false, 0⟩

/-- One iteration of the chunk loop: given the VAD probability for this
512-sample chunk, update the state and possibly emit an utterance
(`transcribe_callback(np.array(speech_buffer))`). -/
def processChunk {α : Type} (st : ListenerState α) (prob : ℚ) (chunk : List α) :
    ListenerState α × Option (List α) :=
  if vadThreshold < prob then
    (⟨st.speechBuffer ++ chunk, true, 0⟩, none)
  else if st.isSpeaking then
    if maxSilenceChunks < st.silenceChunks + 1 then
      (⟨[], false, st.silenceChunks + 1⟩,
        if (listenerSampleRate : ℚ) / 2 < ((st.speechBuffer ++ chunk).length : ℚ)
        then some (st.speechBuffer ++ chunk) else none)
    else (⟨st.speechBuffer ++ chunk, st.isSpeaking, st.silenceChunks + 1⟩, none)
  else (st, none)

/-- Run the listener over a sequence of (probability, chunk) pairs,
collecting the emitted utterances in order. -/
def runListener {α : Type} : ListenerState α → List (ℚ × List α) → ListenerState α × List (List α)
  | st, [] => (st, [])
  | st, pc :: rest =>
    ((runListener (processChunk st pc.1 pc.2).1 rest).1,
     (processChunk st pc.1 pc.2).2.toList ++ (runListener (processChunk st pc.1 pc.2).1 rest).2)

theorem runListener_cons {α : Type} (st : ListenerState α) (p : ℚ) (c : List α)
    (rest : List (ℚ × List α)) :
    runListener st ((p, c) :: rest) =
      ((runListener (processChunk st p c).1 rest).1,
       (processChunk st p c).2.toList ++ (runListener (processChunk st p c).1 rest).2) := rfl

theorem runListener_append {α : Type} (st : ListenerState α) (xs ys : List (ℚ × List α)) :
    runListener st (xs ++ ys) =
      ((runListener (runListener st xs).1 ys).1,
       (runListener st xs).2 ++ (runListener (runListener st xs).1 ys).2) := by
  induction xs generalizing st with
  | nil => simp [runListener]
  | cons x xs ih =>
    obtain ⟨p, c⟩ := x
    rw [List.cons_append, runListener_cons st p c (xs ++ ys), runListener_cons st p c xs, ih]
    simp [runListener_cons, List.append_assoc]

theorem processChunk_speech {α : Type} (st : ListenerState α) (prob : ℚ)
    (hp : vadThreshold < prob) (chunk : List α) :
    processChunk st prob chunk = (⟨st.speechBuffer ++ chunk, true, 0⟩, none) := by
  simp [processChunk, hp]

theorem processChunk_silence_continue {α : Type} (buf : List α) (k : ℕ) (prob : ℚ)
    (hp : ¬ vadThreshold < prob) (hk : ¬ maxSilenceChunks < k + 1) (chunk : List α) :
    processChunk (⟨buf, true, k⟩ : ListenerState α) prob chunk =
      (⟨buf ++ chunk, true, k + 1⟩, none) := by
  simp [processChunk, hp, hk]

theorem run_speech_phase {α : Type} (prob : ℚ) (hp : vadThreshold < prob) (chunk : List α) :
    ∀ (n : ℕ) (st : ListenerState α),
      runListener st (List.replicate (n + 1) (prob, chunk)) =
        (⟨st.speechBuffer ++ (List.replicate (n + 1) chunk).flatten, true, 0⟩, []) := by
  intro n
  induction n with
  | zero =>
    intro st
    rw [List.replicate_succ, List.replicate_succ]
    rw [runListener_cons, processChunk_speech st prob hp chunk]
    simp [runListener]
  | succ n ih =>
    intro st
    rw [List.replicate_succ, runListener_cons, processChunk_speech st prob hp chunk]
    simp only [Option.toList_none, List.nil_append]
    rw [ih ⟨st.speechBuffer ++ chunk, true, 0⟩]
    simp [List.replicate_succ, List.append_assoc]

theorem run_silence_phase {α : Type} (prob : ℚ) (hp : ¬ vadThreshold < prob) (chunk : List α) :
    ∀ (n k : ℕ) (buf : List α), k + n ≤ maxSilenceChunks →
      runListener ⟨buf, true, k⟩ (List.replicate n (prob, chunk)) =
        (⟨buf ++ (List.replicate n chunk).flatten, true, k + n⟩, []) := by
  intro n
  induction n with
  | zero =>
    intro k buf _
    simp [runListener]
  | succ n ih =>
    intro k buf hk
    rw [List.replicate_succ, runListener_cons,
      processChunk_silence_continue buf k prob hp (by omega) chunk]
    simp only [Option.toList_none, List.nil_append]
    rw [ih (k + 1) (buf ++ chunk) (by omega)]
    simp only [List.replicate_succ, List.flatten_cons, List.append_assoc, Prod.mk.injEq,
      ListenerState.mk.injEq]
    exact ⟨⟨trivial, trivial, by omega⟩, trivial⟩

theorem flatten_replicate_length {α : Type} (n : ℕ) (chunk : List α) :
    ((List.replicate n chunk).flatten).length = n * chunk.length := by
  induction n with
  | zero => simp
  | succ n ih => simp [List.replicate_succ, ih, Nat.succ_mul, Nat.add_comm]

/-- The S1 input the claim describes: 20 chunks at probability 0.8,
then 17 chunks at probability 0.1, each of 512 samples. -/
def s1Chunks : List (ℚ × List Unit) :=
  List.replicate 20 ((4/5 : ℚ), List.replicate 512 ()) ++
    List.replicate 17 ((1/10 : ℚ), List.replicate 512 ())

/-- The S1 input extended so the silence run actually exceeds the
code's `max_silence_chunks = 30`: 20 speech chunks then 31 silence
chunks. -/
def s1ChunksLong : List (ℚ × List Unit) :=
  List.replicate 20 ((4/5 : ℚ), List.replicate 512 ()) ++
    List.replicate 31 ((1/10 : ℚ), List.replicate 512 ())

theorem vad_speech_prob : vadThreshold < (4/5 : ℚ) := by norm_num [vadThreshold]

theorem vad_silence_prob : ¬ vadThreshold < (1/10 : ℚ) := by norm_num [vadThreshold]

theorem run_s1_state :
    runListener initListener s1Chunks =
      (⟨([] : List Unit) ++ (List.replicate 20 (List.replicate 512 ())).flatten ++
          (List.replicate 17 (List.replicate 512 ())).flatten, true, 17⟩, []) := by
  unfold s1Chunks
  rw [runListener_append]
  rw [run_speech_phase (4/5 : ℚ) vad_speech_prob (List.replicate 512 ()) 19 initListener]
  rw [show initListener.speechBuffer = ([] : List Unit) from rfl]
  rw [run_silence_phase (1/10 : ℚ) vad_silence_prob (List.replicate 512 ()) 17 0
    (([] : List Unit) ++ (List.replicate 20 (List.replicate 512 ())).flatten)
    (by norm_num [maxSilenceChunks])]
  rfl

/-- Claim C4, counterexample: with the code's defaults
(`max_silence_chunks = 30`, strict `>`), 20 speech chunks at
probability 0.8 followed by only 17 silence chunks at probability 0.1
emit no utterance at all — the claim's "exactly one utterance of at
least 8000 samples" is false on this input. -/
theorem vad_s1_emits_nothing :
    (runListener initListener s1Chunks).2 = [] ∧
      ¬ ∃ u, (runListener initListener s1Chunks).2 = [u] ∧ 8000 ≤ u.length := by
  rw [run_s1_state]
  exact ⟨rfl, by rintro ⟨u, hu, -⟩; exact List.cons_ne_nil u [] hu.symm⟩

theorem processChunk_emit {α : Type} (buf : List α) (k : ℕ) (prob : ℚ)
    (hp : ¬ vadThreshold < prob) (hk : maxSilenceChunks < k + 1) (chunk : List α)
    (hlen : (listenerSampleRate : ℚ) / 2 < (((buf ++ chunk).length : ℕ) : ℚ)) :
    processChunk (⟨buf, true, k⟩ : ListenerState α) prob chunk =
      (⟨[], false, k + 1⟩, some (buf ++ chunk)) := by
  have hlen' : (listenerSampleRate : ℚ) / 2 < (buf.length : ℚ) + (chunk.length : ℚ) := by
    rw [List.length_append] at hlen
    push_cast at hlen
    exact hlen
  simp [processChunk, hp, hk, hlen']

/-- Emission happens exactly when: the chunk is below threshold, the
listener was speaking, the incremented silence count strictly exceeds
`max_silence_chunks`, and the buffer (with this chunk) holds strictly
more than half a second of samples. -/
theorem processChunk_isSome_eq {α : Type} (st : ListenerState α) (prob : ℚ) (chunk : List α) :
    (processChunk st prob chunk).2.isSome =
      (!(decide (vadThreshold < prob)) && st.isSpeaking &&
        decide (maxSilenceChunks < st.silenceChunks + 1) &&
        decide ((listenerSampleRate : ℚ) / 2 < (((st.speechBuffer ++ chunk).length : ℕ) : ℚ))) := by
  by_cases h1 : vadThreshold < prob
  · simp [processChunk, h1]
  · cases h2 : st.isSpeaking
    · simp [processChunk, h1, h2]
    · by_cases h3 : maxSilenceChunks < st.silenceChunks + 1
      · by_cases h4 : (listenerSampleRate : ℚ) / 2 <
            (st.speechBuffer.length : ℚ) + (chunk.length : ℚ)
        · simp [processChunk, h1, h2, h3, h4]
        · simp [processChunk, h1, h2, h3, h4]
      · simp [processChunk, h1, h2, h3]

/-- Claim C4, amended: the defaults are `max_silence_chunks = 30`
(≈ 960 ms) and the transition fires when the silence count strictly
exceeds it, so 20 speech chunks followed by 17 silence chunks emit
nothing; extending the silence to 31 chunks yields exactly one
utterance, of 26112 ≥ 8000 samples.  Emission occurs at precisely the
chunks where the listener was speaking, the probability is at or below
threshold, the incremented silence count exceeds `max_silence_chunks`,
and the buffer holds more than 0.5 s (8000 samples). -/
theorem vad_segmentation_amended :
    ((runListener initListener s1ChunksLong).2).map List.length = [26112] ∧
      ∀ (α : Type) (st : ListenerState α) (prob : ℚ) (chunk : List α),
        (processChunk st prob chunk).2.isSome =
          (!(decide (vadThreshold < prob)) && st.isSpeaking &&
            decide (maxSilenceChunks < st.silenceChunks + 1) &&
            decide ((listenerSampleRate : ℚ) / 2 <
              (((st.speechBuffer ++ chunk).length : ℕ) : ℚ))) := by
  constructor
  · unfold s1ChunksLong
    have h31 : List.replicate 31 (((1:ℚ)/10), List.replicate 512 ()) =
        List.replicate 30 (((1:ℚ)/10), List.replicate 512 ()) ++
          List.replicate 1 (((1:ℚ)/10), List.replicate 512 ()) := by
      rw [← List.replicate_add]
    rw [h31, runListener_append,
      run_speech_phase (4/5 : ℚ) vad_speech_prob (List.replicate 512 ()) 19 initListener,
      show initListener.speechBuffer = ([] : List Unit) from rfl, runListener_append,
      run_silence_phase (1/10 : ℚ) vad_silence_prob (List.replicate 512 ()) 30 0
        (([] : List Unit) ++ (List.replicate 20 (List.replicate 512 ())).flatten)
        (by norm_num [maxSilenceChunks])]
    simp only [Nat.zero_add]
    have hlenN : ((([] : List Unit) ++ (List.replicate 20 (List.replicate 512 ())).flatten ++
        (List.replicate 30 (List.replicate 512 ())).flatten) ++ List.replicate 512 ()).length
          = 26112 := by
      simp only [List.length_append, List.length_nil, flatten_replicate_length,
        List.length_replicate]
    have hlen : (listenerSampleRate : ℚ) / 2 <
        ((((([] : List Unit) ++ (List.replicate 20 (List.replicate 512 ())).flatten ++
          (List.replicate 30 (List.replicate 512 ())).flatten) ++
            List.replicate 512 ()).length : ℕ) : ℚ) := by
      rw [hlenN]; norm_num [listenerSampleRate]
    have hemit := processChunk_emit
      (([] : List Unit) ++ (List.replicate 20 (List.replicate 512 ())).flatten ++
        (List.replicate 30 (List.replicate 512 ())).flatten)
      30 ((1:ℚ)/10) vad_silence_prob (by norm_num [maxSilenceChunks])
      (List.replicate 512 ()) hlen
    rw [show List.replicate 1 (((1:ℚ)/10), List.replicate 512 ()) =
      [(((1:ℚ)/10), List.replicate 512 ())] from rfl]
    rw [runListener_cons, hemit]
    simp only [List.nil_append] at hlenN
    simp only [runListener, Option.toList_some, List.nil_append, List.append_nil,
      List.map_cons, List.map_nil, hlenN]
  · intro α st prob chunk
    exact processChunk_isSome_eq st prob chunk

/-! ## Screen loop stability gating (`app/services/monitor.py`, `_screen_loop`)

Each iteration captures the screen (may fail), hashes the downscaled
image and skips OCR when the hash is unchanged, otherwise stores the
latest image, runs OCR, updates the stable counter (reset when the
text changed, incremented when it is unchanged), and persists one
memory record when recording is on, the counter has reached 2, the
text differs from the last stored text, and `len(text) > 50`.  The
image is an opaque handle; the hash and the OCR outcome are inputs. -/

/-- The loop-local and monitor state `_screen_loop` touches. -/
structure ScreenState where
  stableChecks : ℕ
  lastStoredText : String
  lastVisualHash : Option Int
  latestText : String
  latestImage : Option ℕ
  recording : Bool
  deriving Repr, DecidableEq

/-- What one iteration observes from its collaborators: a failed
capture, or a captured image with its downscaled hash and the OCR
outcome (`none` models `extract_text_async` raising). -/
inductive ScreenObs where
  | captureFail
  | captured (image : ℕ) (visualHash : Int) (ocr : Option String)
  deriving Repr, DecidableEq

/-- Loop entry state: counters zero, no stored text, no hash, and the
monitor's initial `latest_text = ""`, `latest_image = None`. -/
def screenInit (recording : Bool) : ScreenState :=
  ⟨0, "", none, "", none, recording⟩

/-- One iteration of the `while` body (the `try` block; exceptions and
sleeps have no state effect).  Returns the new state and the memory
write, if any. -/
def screenIter (st : ScreenState) (obs : ScreenObs) : ScreenState × Option String :=
  match obs with
  | .captureFail => (st, none)
  | .captured img h ocr =>
    if st.lastVisualHash = some h then (st, none)
    else
      match ocr with
      | none => ({ st with lastVisualHash := some h, latestImage := some img }, none)
      | some text =>
        let st2 :=
          if text ≠ st.latestText then
            { st with
              lastVisualHash := some h
              latestImage := some img
              latestText := text
              stableChecks := 0 }
          else
            { st with
              lastVisualHash := some h
              latestImage := some img
              stableChecks := st.stableChecks + 1 }
        if st2.recording ∧ 2 ≤ st2.stableChecks ∧ text ≠ st2.lastStoredText ∧
            50 < text.length then
          ({ st2 with lastStoredText := text, stableChecks := 0 }, some text)
        else (st2, none)

/-- Run the screen loop over a sequence of observations, collecting
the memory writes in order. -/
def runScreen (st : ScreenState) : List ScreenObs → ScreenState × List String
  | [] => (st, [])
  | o :: rest =>
    ((runScreen (screenIter st o).1 rest).1,
     (screenIter st o).2.toList ++ (runScreen (screenIter st o).1 rest).2)

/-- Claim C5, counterexample: starting the loop with recording on and
feeding OCR text `"Hello"` in two consecutive observed cycles (distinct
visual hashes) produces no memory write at all: the stable counter
reaches only 1 < 2, and `"Hello"` is anyway shorter than the 50-char
minimum — against the claim's "exactly one memory write ... immediately
after the second observation". -/
theorem screen_hello_twice_no_write :
    (runScreen (screenInit true)
      [.captured 1 0 (some "Hello"), .captured 2 1 (some "Hello")]).2 = [] ∧
    ¬ (runScreen (screenInit true)
      [.captured 1 0 (some "Hello"), .captured 2 1 (some "Hello")]).2 = ["Hello"] := by
  constructor
  · decide
  · decide

theorem runScreen_cons (st : ScreenState) (o : ScreenObs) (rest : List ScreenObs) :
    runScreen st (o :: rest) =
      ((runScreen (screenIter st o).1 rest).1,
       (screenIter st o).2.toList ++ (runScreen (screenIter st o).1 rest).2) := rfl

theorem screenIter_first_obs (T : String) (hT : T ≠ "") (i : ℕ) (h : Int) :
    screenIter (screenInit true) (.captured i h (some T)) =
      (⟨0, "", some h, T, some i, true⟩, none) := by
  simp [screenIter, screenInit, hT]

theorem screenIter_second_obs (T : String) (i1 i2 : ℕ) (h1 h2 : Int) (h12 : h1 ≠ h2) :
    screenIter (⟨0, "", some h1, T, some i1, true⟩ : ScreenState)
        (.captured i2 h2 (some T)) =
      (⟨1, "", some h2, T, some i2, true⟩, none) := by
  simp [screenIter, h12]

theorem screenIter_third_obs (T : String) (hT : T ≠ "") (h50 : 50 < T.length)
    (i2 i3 : ℕ) (h2 h3 : Int) (h23 : h2 ≠ h3) :
    screenIter (⟨1, "", some h2, T, some i2, true⟩ : ScreenState)
        (.captured i3 h3 (some T)) =
      (⟨0, T, some h3, T, some i3, true⟩, some T) := by
  simp [screenIter, h23, hT, h50]

/-- Claim C5, amended: the counter counts *repeats*, so a fresh text
value is persisted only on the third consecutive observed cycle that
shows it (the counter then reaches the threshold 2), and only if it is
strictly longer than 50 characters and differs from the last stored
text; with recording on, a qualifying text observed three times in a
row yields exactly one write, immediately at the third observation,
while one or two observations yield none. -/
theorem screen_stability_amended (T : String) (h50 : 50 < T.length)
    (i1 i2 i3 : ℕ) (h1 h2 h3 : Int) (h12 : h1 ≠ h2) (h23 : h2 ≠ h3) :
    (runScreen (screenInit true) [.captured i1 h1 (some T)]).2 = [] ∧
    (runScreen (screenInit true)
      [.captured i1 h1 (some T), .captured i2 h2 (some T)]).2 = [] ∧
    (runScreen (screenInit true)
      [.captured i1 h1 (some T), .captured i2 h2 (some T),
       .captured i3 h3 (some T)]).2 = [T] := by
  have hT : T ≠ "" := by
    intro h
    rw [h] at h50
    simp at h50
  refine ⟨?_, ?_, ?_⟩
  · rw [runScreen_cons, screenIter_first_obs T hT i1 h1]
    rfl
  · rw [runScreen_cons, screenIter_first_obs T hT i1 h1, runScreen_cons,
      screenIter_second_obs T i1 i2 h1 h2 h12]
    rfl
  · rw [runScreen_cons, screenIter_first_obs T hT i1 h1, runScreen_cons,
      screenIter_second_obs T i1 i2 h1 h2 h12, runScreen_cons,
      screenIter_third_obs T hT h50 i2 i3 h2 h3 h23]
    rfl

/-- Witness for the amended C5: a 51-character text observed three
times (with changing hashes) is written exactly once, at the third
observation. -/
theorem screen_stability_amended_witness :
    (runScreen (screenInit true)
      [.captured 1 0 (some "This screen text is fifty one characters long ok ab"),
       .captured 2 1 (some "This screen text is fifty one characters long ok ab"),
       .captured 3 2 (some "This screen text is fifty one characters long ok ab")]).2 =
      ["This screen text is fifty one characters long ok ab"] :=
  (screen_stability_amended "This screen text is fifty one characters long ok ab"
    (by decide) 1 2 3 0 1 2 (by decide) (by decide)).2.2

/-! ## Vector-memory importance pruning
(`inference/app/services/memory/service.py`, `MemoryService._prune_smart`
and `_compute_importance`)

A record enters pruning with its id, metadata timestamp and access
count, and the uniqueness score `_compute_uniqueness_scores` produced
for it (1.0 when unsampled); the uniqueness estimation itself queries
the vector store, so the score is an input here.  `keep` defaults to
`MEMORY_PRUNE_KEEP = 5000` (the constants module is absent from the
sources; the default is modelled from the spec) but every theorem
below is parametric in it. -/

/-- A record as `_prune_smart` reads it from `collection.get`. -/
structure MemRecord where
  id : String
  timestamp : ℚ
  accessCount : ℕ
  uniqueness : ℚ
  deriving Repr, DecidableEq

/-- `RECENCY_WEIGHT, ACCESS_WEIGHT, UNIQUENESS_WEIGHT = 0.25, 0.50, 0.25`. -/
def RECENCY_WEIGHT : ℚ := 25/100

def ACCESS_WEIGHT : ℚ := 50/100

def UNIQUENESS_WEIGHT : ℚ := 25/100

/-- `PROTECTED_ACCESS_COUNT = 5`. -/
def PROTECTED_ACCESS_COUNT : ℕ := 5

/-- `_compute_importance`: weighted score and the protected flag. -/
def computeImportance (timestamp : ℚ) (accessCount : ℕ) (uniqueness now maxAge : ℚ)
    (maxAccess : ℕ) : ℚ × Bool :=
  ((RECENCY_WEIGHT * (if 0 < maxAge then 1 - (now - timestamp) / maxAge else 1) +
    ACCESS_WEIGHT * (if 0 < maxAccess then (accessCount : ℚ) / (maxAccess : ℚ) else 0) +
    UNIQUENESS_WEIGHT * uniqueness),
   decide (PROTECTED_ACCESS_COUNT ≤ accessCount))

/-- Python `min(x :: xs)`. -/
def pyMinQ : ℚ → List ℚ → ℚ
  | a, [] => a
  | a, x :: xs => pyMinQ (min a x) xs

/-- Python `max(x :: xs)`. -/
def pyMaxN : ℕ → List ℕ → ℕ
  | a, [] => a
  | a, x :: xs => pyMaxN (max a x) xs

/-- `max_age = (now - min(ts_list)) if ts_list else 1.0`. -/
def pruneMaxAge (now : ℚ) (records : List MemRecord) : ℚ :=
  match records.map (·.timestamp) with
  | [] => 1
  | t :: ts => now - pyMinQ t ts

/-- `max_access = max(ac_list, default=1)`. -/
def pruneMaxAccess (records : List MemRecord) : ℕ :=
  match records.map (·.accessCount) with
  | [] => 1
  | a :: as_ => pyMaxN a as_

/-- The scored view `_prune_smart` builds: `(id, score, protected)`. -/
def pruneScored (now : ℚ) (records : List MemRecord) : List (String × ℚ × Bool) :=
  records.map fun r =>
    (r.id, computeImportance r.timestamp r.accessCount r.uniqueness now
      (pruneMaxAge now records) (pruneMaxAccess records))

/-- The eligible `(id, score)` pairs, stably sorted by ascending score
(Python `sorted(..., key=lambda x: x[1])`). -/
def pruneEligible (now : ℚ) (records : List MemRecord) : List (String × ℚ) :=
  (((pruneScored now records).filter fun x => !x.2.2).map fun x => (x.1, x.2.1)).insertionSort
    fun a b => a.2 ≤ b.2

/-- The ids `_prune_smart` deletes: nothing when the collection is
within `keep`, otherwise the lowest-scored eligible ids up to
`len(ids) - keep`. -/
def pruneToDelete (keep : ℕ) (now : ℚ) (records : List MemRecord) : List String :=
  if records.length ≤ keep then []
  else ((pruneEligible now records).take (records.length - keep)).map (·.1)

/-- The records left in the collection after `collection.delete`. -/
def pruneRemaining (keep : ℕ) (now : ℚ) (records : List MemRecord) : List MemRecord :=
  records.filter fun r => !(decide (r.id ∈ pruneToDelete keep now records))

/-- The S6 collection: A old and much-accessed, B old at the protection
threshold, C new with 4 accesses; all uniqueness defaults. -/
def s6Records : List MemRecord :=
  [⟨"A", 0, 10, 1⟩, ⟨"B", 0, 5, 1⟩, ⟨"C", 100, 4, 1⟩]

theorem pruneToDelete_subset_eligible (keep : ℕ) (now : ℚ) (records : List MemRecord)
    (x : String) (hx : x ∈ pruneToDelete keep now records) :
    ∃ r ∈ records, r.id = x ∧ r.accessCount < PROTECTED_ACCESS_COUNT := by
  unfold pruneToDelete at hx
  split at hx
  · simp at hx
  · obtain ⟨⟨id', sc⟩, hmem, rfl⟩ := List.mem_map.mp hx
    have hmem' : (id', sc) ∈ pruneEligible now records := List.mem_of_mem_take hmem
    unfold pruneEligible at hmem'
    rw [List.mem_insertionSort] at hmem'
    obtain ⟨⟨id'', imp⟩, hmem'', heq⟩ := List.mem_map.mp hmem'
    obtain ⟨hmem3, hflag⟩ := List.mem_filter.mp hmem''
    obtain ⟨r, hr, hr2⟩ := List.mem_map.mp hmem3
    refine ⟨r, hr, ?_, ?_⟩
    · cases heq
      exact congrArg Prod.fst hr2
    · have : imp.2 = false := by simpa using hflag
      have h2 : imp = computeImportance r.timestamp r.accessCount r.uniqueness now _ _ :=
        (congrArg (Prod.snd) hr2).symm
      rw [h2] at this
      unfold computeImportance at this
      simpa using this

/-- Claim C3 (confirmed): a record with `access_count ≥ 5` is never
among the deleted ids and survives pruning (ids assumed pairwise
distinct, as the store requires); concretely, on the S6 collection with
`keep = 2` the pruning deletes exactly `C` and retains `A` and `B`. -/
theorem prune_protects_high_access :
    (∀ (keep : ℕ) (now : ℚ) (records : List MemRecord),
      (records.map (·.id)).Nodup →
      ∀ r ∈ records, PROTECTED_ACCESS_COUNT ≤ r.accessCount →
        r.id ∉ pruneToDelete keep now records ∧ r ∈ pruneRemaining keep now records) ∧
    pruneToDelete 2 200 s6Records = ["C"] := by
  constructor
  · intro keep now records hnd r hr hp
    have hnotin : r.id ∉ pruneToDelete keep now records := by
      intro hx
      obtain ⟨r', hr', hid, hlt⟩ := pruneToDelete_subset_eligible keep now records r.id hx
      have : r' = r := List.inj_on_of_nodup_map hnd hr' hr hid
      rw [this] at hlt
      omega
    exact ⟨hnotin, List.mem_filter.mpr ⟨hr, by simpa using hnotin⟩⟩
  · rfl

/-- Witness for C3: record `A` (access 10) of the S6 collection is
protected, not deleted, and retained. -/
theorem prune_protects_high_access_witness :
    (⟨"A", 0, 10, 1⟩ : MemRecord).id ∉ pruneToDelete 2 200 s6Records ∧
      (⟨"A", 0, 10, 1⟩ : MemRecord) ∈ pruneRemaining 2 200 s6Records :=
  prune_protects_high_access.1 2 200 s6Records (by decide)
    ⟨"A", 0, 10, 1⟩ (List.mem_cons_self _ _) (by decide)

/-- The number of protected records (`access_count ≥ 5`). -/
def protectedCount (records : List MemRecord) : ℕ :=
  (records.filter fun r => decide (PROTECTED_ACCESS_COUNT ≤ r.accessCount)).length

/-- A collection in which every record is protected. -/
def allProtectedRecords : List MemRecord :=
  [⟨"x", 0, 5, 1⟩, ⟨"y", 50, 5, 1⟩]

/-- Claim C6, counterexample: when more than `keep` records are
protected, pruning deletes nothing below the target: with two protected
records and `keep = 1`, the collection still holds 2 > 1 records after
pruning. -/
theorem prune_keep_bound_violated :
    pruneToDelete 1 100 allProtectedRecords = [] ∧
      (pruneRemaining 1 100 allProtectedRecords).length = 2 ∧
      ¬ (pruneRemaining 1 100 allProtectedRecords).length ≤ 1 := by
  refine ⟨rfl, rfl, by decide⟩

theorem length_filter_not_add {α : Type} (p : α → Bool) (l : List α) :
    (l.filter p).length + (l.filter fun a => !(p a)).length = l.length := by
  induction l with
  | nil => rfl
  | cons x xs ih =>
    cases h : p x <;> simp [List.filter_cons, h, ← ih] <;> omega

/-- Claim C6, amended: after pruning the number of records is at most
`max keep (number of protected records)` — the keep target is met
exactly when at most `keep` records are protected; protected records
are never deleted to meet it (ids assumed pairwise distinct). -/
theorem prune_remaining_bound (keep : ℕ) (now : ℚ) (records : List MemRecord)
    (hnd : (records.map (·.id)).Nodup) :
    (pruneRemaining keep now records).length ≤ max keep (protectedCount records) := by
  by_cases hle : records.length ≤ keep
  · have hD : pruneToDelete keep now records = [] := by
      unfold pruneToDelete
      rw [if_pos hle]
    have hrem : pruneRemaining keep now records = records := by
      unfold pruneRemaining
      rw [hD]
      simp
    rw [hrem]
    exact le_trans hle (le_max_left _ _)
  · have hnd_elig : ((pruneEligible now records).map Prod.fst).Nodup := by
      have h0 : List.Sublist ((pruneScored now records).filter fun x => !x.2.2)
          (pruneScored now records) := List.filter_sublist _
      have h1 : List.Sublist
          (((pruneScored now records).filter fun x => !x.2.2).map Prod.fst)
          (records.map (·.id)) := by
        have := h0.map Prod.fst
        rwa [show (pruneScored now records).map Prod.fst = records.map (·.id) by
          unfold pruneScored
          rw [List.map_map]
          rfl] at this
      have h2 : ((((pruneScored now records).filter fun x => !x.2.2).map
          fun x => (x.1, x.2.1)).map Prod.fst).Nodup := by
        rw [List.map_map]
        exact h1.nodup hnd
      have h3 := ((List.perm_insertionSort (fun a b => a.2 ≤ b.2)
        ((((pruneScored now records).filter fun x => !x.2.2).map
          fun x => (x.1, x.2.1))))).map Prod.fst
      exact (h3.nodup_iff).mpr h2
    have hDnodup : (pruneToDelete keep now records).Nodup := by
      unfold pruneToDelete
      rw [if_neg hle]
      have hsub : List.Sublist
          (((pruneEligible now records).take (records.length - keep)).map Prod.fst)
          ((pruneEligible now records).map Prod.fst) :=
        (List.take_sublist _ _).map _
      exact hsub.nodup hnd_elig
    have hsubset : pruneToDelete keep now records ⊆
        (records.filter fun r => decide (r.id ∈ pruneToDelete keep now records)).map (·.id) := by
      intro d hd
      obtain ⟨r, hr, hid, -⟩ := pruneToDelete_subset_eligible keep now records d hd
      exact List.mem_map.mpr ⟨r, List.mem_filter.mpr ⟨hr, by simp [hid, hd]⟩, hid⟩
    have f5 : (pruneToDelete keep now records).length ≤
        (records.filter fun r => decide (r.id ∈ pruneToDelete keep now records)).length := by
      have := (hDnodup.subperm hsubset).length_le
      rwa [List.length_map] at this
    have f1 : (pruneToDelete keep now records).length =
        min (records.length - keep) (pruneEligible now records).length := by
      unfold pruneToDelete
      rw [if_neg hle, List.length_map, List.length_take]
    have f2 : (pruneEligible now records).length + protectedCount records =
        records.length := by
      unfold pruneEligible protectedCount
      rw [(List.perm_insertionSort _ _).length_eq, List.length_map]
      rw [← List.countP_eq_length_filter, ← List.countP_eq_length_filter]
      rw [show pruneScored now records = records.map fun r =>
        (r.id, computeImportance r.timestamp r.accessCount r.uniqueness now
          (pruneMaxAge now records) (pruneMaxAccess records)) from rfl]
      rw [List.countP_map]
      rw [show List.countP ((fun (x : String × ℚ × Bool) => !x.2.2) ∘ fun r =>
        (r.id, computeImportance r.timestamp r.accessCount r.uniqueness now
          (pruneMaxAge now records) (pruneMaxAccess records))) records =
        List.countP (fun r => !(decide (PROTECTED_ACCESS_COUNT ≤ r.accessCount))) records
        from rfl]
      rw [List.countP_eq_length_filter, List.countP_eq_length_filter]
      rw [Nat.add_comm]
      rw [← length_filter_not_add (fun r => decide (PROTECTED_ACCESS_COUNT ≤ r.accessCount))
        records]
    have f6 : (records.filter fun r =>
          decide (r.id ∈ pruneToDelete keep now records)).length +
        (pruneRemaining keep now records).length = records.length := by
      unfold pruneRemaining
      exact length_filter_not_add _ records
    omega

/-- Witness for the amended C6: the all-protected collection with
`keep = 1` ends at `2 = max 1 2` records. -/
theorem prune_remaining_bound_witness :
    (pruneRemaining 1 100 allProtectedRecords).length ≤
      max 1 (protectedCount allProtectedRecords) :=
  prune_remaining_bound 1 100 allProtectedRecords (by decide)

/-! ## Memory id assignment (`inference/app/services/memory/service.py`,
`MemoryService.add_memory` and `add_memories_batch`)

`add_memory` rejects blank text and assigns
`doc_id = f"{source}_{int(time.time()*1000)}_{threading.get_ident()}"` —
three components, no sequence number.  Only `add_memories_batch`
appends the item index as a fourth component.  The wall-clock
millisecond count and the thread ident are inputs. -/

/-- `add_memory`'s validation and id assignment: `none` when the
stripped text is empty, otherwise the assigned doc id.  The id does not
depend on the text. -/
def addMemoryAssignedId (text source : String) (nowMs tid : ℕ) : Option String :=
  if stripChars text.data = [] then none
  else some (source ++ "_" ++ Nat.repr nowMs ++ "_" ++ Nat.repr tid)

/-- `add_memories_batch` id assignment: one millisecond stamp and
worker ident for the whole batch, the original item index as sequence
component, blank-text items dropped.  Items are `(text, source)`. -/
def addMemoriesBatchIds (items : List (String × String)) (nowMs tid : ℕ) : List String :=
  ((items.enum).filter fun p => !(decide (stripChars p.2.1.data = []))).map fun p =>
    p.2.2 ++ "_" ++ Nat.repr nowMs ++ "_" ++ Nat.repr tid ++ "_" ++ Nat.repr p.1

/-- The id shape the claim asserts for `add`: `{source}_{ms}_{worker}_{seq}`. -/
def claimedIdFormat (source : String) (nowMs tid seq : ℕ) : String :=
  source ++ "_" ++ Nat.repr nowMs ++ "_" ++ Nat.repr tid ++ "_" ++ Nat.repr seq

/-- Claim C8, counterexample: two successful `add` calls with different
texts from the same worker in the same millisecond are both assigned
the id `audio_5_7` — a collision, and an id without any `{seq}`
component. -/
theorem add_memory_id_collision :
    addMemoryAssignedId "First" "audio" 5 7 = some "audio_5_7" ∧
      addMemoryAssignedId "Second" "audio" 5 7 = some "audio_5_7" := by
  constructor
  · decide
  · decide

theorem toDigitsCore_length_ge (b : ℕ) :
    ∀ (fuel n : ℕ) (ds : List Char),
      ds.length + 1 ≤ (Nat.toDigitsCore b (fuel + 1) n ds).length := by
  intro fuel
  induction fuel with
  | zero =>
    intro n ds
    simp only [Nat.toDigitsCore]
    split
    · simp
    · simp
  | succ fuel ih =>
    intro n ds
    simp only [Nat.toDigitsCore]
    split
    · simp
    · exact le_trans (by simp) (ih (n / b) (Nat.digitChar (n % b) :: ds))

theorem repr_length_pos (n : ℕ) : 1 ≤ (Nat.repr n).length := by
  show 1 ≤ (Nat.toDigits 10 n).asString.length
  unfold Nat.toDigits
  exact toDigitsCore_length_ge 10 n n []

/-- Claim C8, amended: every successful `add(text, source)` call is
assigned the id `{source}_{ms}_{worker}` — with no sequence component
and no dependence on the text — so two add calls from the same worker
within the same millisecond collide rather than stay unique; the
claimed four-component form `{source}_{ms}_{worker}_{seq}` is never the
assigned id; only batch adds carry a sequence component, the item's
index within its batch. -/
theorem add_memory_id_amended :
    (∀ (t1 t2 source : String) (ms tid : ℕ),
        stripChars t1.data ≠ [] → stripChars t2.data ≠ [] →
        addMemoryAssignedId t1 source ms tid = addMemoryAssignedId t2 source ms tid) ∧
    (∀ (t source : String) (ms tid : ℕ), stripChars t.data ≠ [] →
        addMemoryAssignedId t source ms tid =
          some (source ++ "_" ++ Nat.repr ms ++ "_" ++ Nat.repr tid)) ∧
    (∀ (source : String) (ms tid seq : ℕ),
        source ++ "_" ++ Nat.repr ms ++ "_" ++ Nat.repr tid ≠
          claimedIdFormat source ms tid seq) ∧
    (∀ (items : List (String × String)) (ms tid : ℕ) (x : String),
        x ∈ addMemoriesBatchIds items ms tid →
        ∃ src seq, x = claimedIdFormat src ms tid seq) := by
  refine ⟨?_, ?_, ?_, ?_⟩
  · intro t1 t2 source ms tid h1 h2
    unfold addMemoryAssignedId
    rw [if_neg h1, if_neg h2]
  · intro t source ms tid h
    unfold addMemoryAssignedId
    rw [if_neg h]
  · intro source ms tid seq heq
    have hlen := congrArg String.length heq
    unfold claimedIdFormat at hlen
    simp only [String.length_append] at hlen
    have := repr_length_pos seq
    omega
  · intro items ms tid x hx
    unfold addMemoriesBatchIds at hx
    obtain ⟨p, -, rfl⟩ := List.mem_map.mp hx
    exact ⟨p.2.2, p.1, rfl⟩

/-- Witness for the amended C8: the colliding pair from the
counterexample instantiates the text-independence and format parts,
and a one-item batch produces the four-component id `a_5_7_0`. -/
theorem add_memory_id_amended_witness :
    addMemoryAssignedId "First" "audio" 5 7 = addMemoryAssignedId "Second" "audio" 5 7 ∧
      ("audio" ++ "_" ++ Nat.repr 5 ++ "_" ++ Nat.repr 7 ≠ claimedIdFormat "audio" 5 7 0) ∧
      ∃ src seq, "a_5_7_0" = claimedIdFormat src 5 7 seq :=
  ⟨add_memory_id_amended.1 "First" "Second" "audio" 5 7 (by decide) (by decide),
   add_memory_id_amended.2.2.1 "audio" 5 7 0,
   add_memory_id_amended.2.2.2 [("hello", "a")] 5 7 "a_5_7_0" (by decide)⟩

/-! ## On-demand deduplication (`inference/app/services/memory/service.py`,
`MemoryService._prune_duplicates`)

The sampled records (most recent first) are scanned; for each anchor
not already marked, its store neighbors are examined, and for every
similar enough neighbor (similarity `1 - distance ≥ 0.92`) the record
with lower access count (ties: the older one, with ties again broken
toward keeping the anchor) is added to the deletion set.  Neighbor
lists returned by `collection.query` are inputs, with the distance and
the neighbor's metadata. -/

/-- A record as the dedup sample sees it. -/
structure DedupRecord where
  id : String
  doc : String
  timestamp : ℚ
  accessCount : ℕ
  deriving Repr, DecidableEq

/-- A query result row: neighbor id, cosine distance, and its metadata. -/
structure DedupNeighbor where
  id : String
  distance : ℚ
  accessCount : ℕ
  timestamp : ℚ
  deriving Repr, DecidableEq

/-- `SIMILARITY_THRESHOLD = 0.92`. -/
def SIMILARITY_THRESHOLD : ℚ := 92/100

/-- Modelled from the spec: the dedup sample size default
(`DEDUP_SAMPLE_SIZE`, "sample up to 500 most-recent records") — the
constants module itself is absent from the sources. -/
def DEDUP_SAMPLE_SIZE : ℕ := 500

/-- `to_del.add(x)`: Python-set insertion, as a list with set semantics. -/
def sAdd (x : String) (td : List String) : List String :=
  if x ∈ td then td else x :: td

/-- The id the comparison deletes: the neighbor when
`ac1 > ac2 or (ac1 == ac2 and ts1 >= ts2)`, else the anchor. -/
def dedupLoser (a : DedupRecord) (nb : DedupNeighbor) : String :=
  if nb.accessCount < a.accessCount ∨
      (a.accessCount = nb.accessCount ∧ nb.timestamp ≤ a.timestamp)
  then nb.id else a.id

/-- The inner neighbor loop for one anchor: skip the self-match, the
already-marked, and the insufficiently similar; otherwise mark the
loser. -/
def dedupInner (a : DedupRecord) : List DedupNeighbor → List String → List String
  | [], td => td
  | nb :: rest, td =>
    if nb.id = a.id ∨ nb.id ∈ td ∨ 1 - nb.distance < SIMILARITY_THRESHOLD then
      dedupInner a rest td
    else
      dedupInner a rest (sAdd (dedupLoser a nb) td)

/-- The outer loop over the sample: an anchor already marked for
deletion is skipped. -/
def dedupOuter : List (DedupRecord × List DedupNeighbor) → List String → List String
  | [], td => td
  | anb :: rest, td =>
    if anb.1.id ∈ td then dedupOuter rest td
    else dedupOuter rest (dedupInner anb.1 anb.2 td)

/-- `sorted(..., key=timestamp, reverse=True)[:sample_size]`, stable. -/
def dedupSample (sampleSize : ℕ)
    (records : List (DedupRecord × List DedupNeighbor)) :
    List (DedupRecord × List DedupNeighbor) :=
  (records.insertionSort fun x y => y.1.timestamp ≤ x.1.timestamp).take sampleSize

/-- `_prune_duplicates`: the set of ids deleted in one run. -/
def pruneDuplicates (sampleSize : ℕ)
    (records : List (DedupRecord × List DedupNeighbor)) : List String :=
  dedupOuter (dedupSample sampleSize records) []

theorem dedupInner_cons (a : DedupRecord) (nb : DedupNeighbor)
    (rest : List DedupNeighbor) (td : List String) :
    dedupInner a (nb :: rest) td =
      if nb.id = a.id ∨ nb.id ∈ td ∨ 1 - nb.distance < SIMILARITY_THRESHOLD then
        dedupInner a rest td
      else dedupInner a rest (sAdd (dedupLoser a nb) td) := rfl

theorem dedupOuter_cons (anb : DedupRecord × List DedupNeighbor)
    (rest : List (DedupRecord × List DedupNeighbor)) (td : List String) :
    dedupOuter (anb :: rest) td =
      if anb.1.id ∈ td then dedupOuter rest td
      else dedupOuter rest (dedupInner anb.1 anb.2 td) := rfl

/-- The run in which an anchor, beaten by its first neighbor, goes on
to condemn its second neighbor: `a` (access 1) meets `b` (access 2,
similarity 0.99) and then `c` (access 0, similarity 0.99). -/
def dedupCex : List (DedupRecord × List DedupNeighbor) :=
  [(⟨"a", "d", 10, 1⟩, [⟨"b", 1/100, 2, 5⟩, ⟨"c", 1/100, 0, 4⟩]),
   (⟨"b", "db", 5, 2⟩, []),
   (⟨"c", "dc", 4, 0⟩, [])]

/-- Claim C9, counterexample: in `dedupCex` the pair `(a, c)` is
identified as duplicates (similarity 0.99 ≥ 0.92), yet BOTH members
are deleted in the one run: `a` loses to `b` first, and the marked
anchor `a` still condemns `c` afterwards. -/
theorem dedup_deletes_both_members :
    pruneDuplicates 500 dedupCex = ["c", "a"] ∧
      SIMILARITY_THRESHOLD ≤ 1 - (1 : ℚ)/100 := by
  have hsim : ¬ ((1 : ℚ) - 1/100 < SIMILARITY_THRESHOLD) := by
    norm_num [SIMILARITY_THRESHOLD]
  have hsim' : ¬ ((1 : ℚ) - 100⁻¹ < SIMILARITY_THRESHOLD) := by
    norm_num [SIMILARITY_THRESHOLD]
  have hts1 : ((4 : ℚ) ≤ 5) := by norm_num
  have hts2 : ((5 : ℚ) ≤ 10) := by norm_num
  constructor
  · have hba : ¬ (("b" : String) = "a") := by decide
    have hca : ¬ (("c" : String) = "a") := by decide
    have hbc : ¬ (("b" : String) = "c") := by decide
    simp [pruneDuplicates, dedupSample, dedupCex, List.insertionSort, List.orderedInsert,
      hts1, hts2, dedupOuter, dedupInner, sAdd, dedupLoser, hsim, hsim', hba, hca, hbc]
  · norm_num [SIMILARITY_THRESHOLD]

/-- `rid` wins every comparison it can take part in: any neighbor row
bearing `rid` beats its anchor (strictly higher access, or tied access
and strictly newer), and any anchor bearing `rid` beats every
non-self neighbor. -/
def strictlyDominant (rid : String)
    (records : List (DedupRecord × List DedupNeighbor)) : Prop :=
  (∀ anb ∈ records, ∀ nb ∈ anb.2, nb.id = rid →
      anb.1.accessCount < nb.accessCount ∨
        (anb.1.accessCount = nb.accessCount ∧ anb.1.timestamp < nb.timestamp)) ∧
  (∀ anb ∈ records, anb.1.id = rid → ∀ nb ∈ anb.2, nb.id ≠ rid →
      nb.accessCount < anb.1.accessCount ∨
        (anb.1.accessCount = nb.accessCount ∧ nb.timestamp ≤ anb.1.timestamp))

theorem sAdd_not_mem (rid x : String) (td : List String)
    (hx : x ≠ rid) (htd : rid ∉ td) : rid ∉ sAdd x td := by
  unfold sAdd
  split
  · exact htd
  · intro hmem
    rcases List.mem_cons.mp hmem with h | h
    · exact hx h.symm
    · exact htd h

theorem dedupInner_preserves (rid : String) (a : DedupRecord) :
    ∀ (nbs : List DedupNeighbor) (td : List String),
      rid ∉ td →
      (∀ nb ∈ nbs, nb.id = rid →
        a.accessCount < nb.accessCount ∨
          (a.accessCount = nb.accessCount ∧ a.timestamp < nb.timestamp)) →
      (a.id = rid → ∀ nb ∈ nbs, nb.id ≠ rid →
        nb.accessCount < a.accessCount ∨
          (a.accessCount = nb.accessCount ∧ nb.timestamp ≤ a.timestamp)) →
      rid ∉ dedupInner a nbs td := by
  intro nbs
  induction nbs with
  | nil => intro td htd _ _; exact htd
  | cons nb rest ih =>
    intro td htd hn ha
    rw [dedupInner_cons]
    split
    · exact ih td htd (fun x hx => hn x (List.mem_cons_of_mem nb hx))
        (fun hr x hx => ha hr x (List.mem_cons_of_mem nb hx))
    · rename_i hskip
      have hloser : dedupLoser a nb ≠ rid := by
        unfold dedupLoser
        split
        · rename_i hwin
          intro hnbid
          have hdom := hn nb (List.mem_cons_self nb rest) hnbid
          rcases hdom with hlt | ⟨heq, hts⟩ <;> rcases hwin with hw | ⟨hweq, hwts⟩
          · omega
          · omega
          · omega
          · linarith
        · rename_i hwin
          intro haid
          apply hwin
          have hnbne : nb.id ≠ rid := by
            intro h
            exact hskip (Or.inl (h.trans haid.symm))
          exact ha haid nb (List.mem_cons_self nb rest) hnbne
      exact ih (sAdd (dedupLoser a nb) td)
        (sAdd_not_mem rid (dedupLoser a nb) td hloser htd)
        (fun x hx => hn x (List.mem_cons_of_mem nb hx))
        (fun hr x hx => ha hr x (List.mem_cons_of_mem nb hx))

theorem dedupOuter_preserves (rid : String) :
    ∀ (sample : List (DedupRecord × List DedupNeighbor)) (td : List String),
      rid ∉ td →
      (∀ anb ∈ sample, ∀ nb ∈ anb.2, nb.id = rid →
        anb.1.accessCount < nb.accessCount ∨
          (anb.1.accessCount = nb.accessCount ∧ anb.1.timestamp < nb.timestamp)) →
      (∀ anb ∈ sample, anb.1.id = rid → ∀ nb ∈ anb.2, nb.id ≠ rid →
        nb.accessCount < anb.1.accessCount ∨
          (anb.1.accessCount = nb.accessCount ∧ nb.timestamp ≤ anb.1.timestamp)) →
      rid ∉ dedupOuter sample td := by
  intro sample
  induction sample with
  | nil => intro td htd _ _; exact htd
  | cons anb rest ih =>
    intro td htd h1 h2
    rw [dedupOuter_cons]
    split
    · exact ih td htd (fun x hx => h1 x (List.mem_cons_of_mem anb hx))
        (fun x hx => h2 x (List.mem_cons_of_mem anb hx))
    · exact ih (dedupInner anb.1 anb.2 td)
        (dedupInner_preserves rid anb.1 anb.2 td htd
          (h1 anb (List.mem_cons_self anb rest))
          (fun hr => h2 anb (List.mem_cons_self anb rest) hr))
        (fun x hx => h1 x (List.mem_cons_of_mem anb hx))
        (fun x hx => h2 x (List.mem_cons_of_mem anb hx))

/-- Claim C9, amended: each comparison of an identified duplicate pair
marks exactly one id — the loser by (access_count, then timestamp,
anchor kept on full ties); an id already marked for deletion is
skipped as an anchor at the start of its own turn and is never chosen
again as a deletion candidate; but an anchor marked mid-scan keeps
condemning its remaining neighbors, so both members of an identified
pair can be deleted in one run.  A record whose id wins every
comparison it can take part in is never deleted. -/
theorem dedup_amended :
    (∀ (anb : DedupRecord × List DedupNeighbor) (rest : List _) (td : List String),
        anb.1.id ∈ td → dedupOuter (anb :: rest) td = dedupOuter rest td) ∧
    (∀ (a : DedupRecord) (nb : DedupNeighbor) (rest : List DedupNeighbor)
        (td : List String), nb.id ∈ td →
        dedupInner a (nb :: rest) td = dedupInner a rest td) ∧
    (∀ (a : DedupRecord) (nb : DedupNeighbor),
        dedupLoser a nb = nb.id ∨ dedupLoser a nb = a.id) ∧
    (∀ (sampleSize : ℕ) (records : List (DedupRecord × List DedupNeighbor))
        (rid : String), strictlyDominant rid records →
        rid ∉ pruneDuplicates sampleSize records) := by
  refine ⟨?_, ?_, ?_, ?_⟩
  · intro anb rest td h
    rw [dedupOuter_cons, if_pos h]
  · intro a nb rest td h
    rw [dedupInner_cons, if_pos (Or.inr (Or.inl h))]
  · intro a nb
    unfold dedupLoser
    split
    · exact Or.inl rfl
    · exact Or.inr rfl
  · intro sampleSize records rid ⟨h1, h2⟩
    unfold pruneDuplicates
    have hmem : ∀ anb ∈ dedupSample sampleSize records, anb ∈ records := by
      intro anb h
      have h' := List.mem_of_mem_take h
      exact (List.mem_insertionSort _).mp h'
    exact dedupOuter_preserves rid (dedupSample sampleSize records) []
      (List.not_mem_nil rid)
      (fun anb ha => h1 anb (hmem anb ha))
      (fun anb ha => h2 anb (hmem anb ha))

/-- Witness for the amended C9: an anchor already in the deletion set
is skipped; a neighbor already in the set is skipped; and a record
that wins all comparisons (here vacuously) survives the run. -/
theorem dedup_amended_witness :
    dedupOuter [(⟨"a", "d", 0, 0⟩, [])] ["a"] = dedupOuter [] ["a"] ∧
      dedupInner ⟨"a", "d", 0, 0⟩ [⟨"b", 0, 0, 0⟩] ["b"] =
        dedupInner ⟨"a", "d", 0, 0⟩ [] ["b"] ∧
      "z" ∉ pruneDuplicates 500 [(⟨"z", "dz", 0, 9⟩, [])] :=
  ⟨dedup_amended.1 (⟨"a", "d", 0, 0⟩, []) [] ["a"] (by decide),
   dedup_amended.2.1 ⟨"a", "d", 0, 0⟩ ⟨"b", 0, 0, 0⟩ [] ["b"] (by decide),
   dedup_amended.2.2.2 500 [(⟨"z", "dz", 0, 9⟩, [])] "z"
     (by constructor <;> simp [strictlyDominant])⟩

/-! ## Audio transcription dispatch (`app/services/audio.py`,
`AudioService._transcribe`)

Under the STT lock the PCM is transcribed; the segment texts are
joined with spaces and stripped, and a non-empty result is delivered
to the registered callback as `self.callback(text)` — one argument.
`DeviceListener` hands `_transcribe` only the PCM buffer, so no device
tag exists anywhere on this path, although the repository's own tests
(`tests/test_audio.py`) call `_transcribe(audio, "user")` and assert
`callback("Test transcription.", "user")`. -/

/-- `" ".join(s.text for s in segments).strip()`. -/
def transcribeText (segments : List String) : String :=
  ⟨stripChars (String.intercalate " " segments).data⟩

/-- The only call shape the code can make on the registered callback:
bare text, no source tag. -/
inductive TranscribeEvent where
  | callbackText (text : String)
  deriving DecidableEq, Repr

/-- Embedding of `_transcribe`: a non-empty transcription invokes the
callback with the bare text; an empty one (or no callback) does
nothing. -/
def audioTranscribeEmit (segments : List String) (hasCallback : Bool) :
    List TranscribeEvent :=
  if transcribeText segments ≠ "" ∧ hasCallback then
    [TranscribeEvent.callbackText (transcribeText segments)]
  else []

/-- Claim C7 (code bug): evaluating `_transcribe` at the test's input —
an utterance transcribed as `"Test transcription."` — the callback is
invoked with the bare text only; the `(text, source)` pair the claim
(and the repository's own tests) require cannot be produced, as the
utterance path carries no device tag. -/
theorem transcribe_passes_bare_text :
    audioTranscribeEmit ["Test transcription."] true =
      [TranscribeEvent.callbackText "Test transcription."] := by
  decide

/-! ## Transcript dispatch (`app/services/monitor.py`,
`BackgroundMonitor._handle_transcript` and `_process_transcript`)

`_handle_transcript` runs on the audio thread: when the monitor is not
running it returns at once; otherwise it schedules the live broadcast
callback and enqueues `(text, source)` for the transcript worker,
which appends to the 30-item ring, persists significant transcripts
while recording, and fires question detection for system-source
questions. -/

/-- The monitor state these paths touch. -/
structure MonitorState where
  running : Bool
  recording : Bool
  autoAnswer : Bool
  queue : Option (List (String × String))
  recentTranscripts : List (ℚ × String × String)
  latestTranscript : String
  deriving Repr, DecidableEq

/-- The immediate effect `_handle_transcript` can schedule. -/
inductive MonitorEvent where
  | broadcast (text source : String)
  deriving DecidableEq, Repr

/-- What `_process_transcript` can do besides mutating state. -/
inductive WorkerEvent where
  | memoryAdd (text source : String)
  | questionDetected (text : String)
  deriving DecidableEq, Repr

/-- Embedding of `_handle_transcript`. -/
def handleTranscript (st : MonitorState) (hasOnTranscript : Bool)
    (text source : String) : MonitorState × List MonitorEvent :=
  if !st.running then (st, [])
  else
    ({ st with queue := st.queue.map (· ++ [(text, source)]) },
     if hasOnTranscript then [MonitorEvent.broadcast text source] else [])

/-- `len(text.split())`: count the maximal whitespace-free runs. -/
def splitCountAux : List Char → Bool → ℕ
  | [], _ => 0
  | c :: rest, inWord =>
    if isStripSpace c then splitCountAux rest false
    else (if inWord then 0 else 1) + splitCountAux rest true

def pyWordCount (text : String) : ℕ := splitCountAux text.data false

/-- `source.upper()`. -/
def toUpperStr (s : String) : String := ⟨s.data.map Char.toUpper⟩

/-- Embedding of `_process_transcript` for one dequeued item: update
`latest_transcript`, append to the bounded ring (maxlen 30), persist
`"{SRC}: {text}"` when recording and the word count is ≥ 4, and fire
question detection for system-source questions. -/
def processTranscript (now : ℚ) (st : MonitorState) (text source : String) :
    MonitorState × List WorkerEvent :=
  ({ st with
      latestTranscript := text
      recentTranscripts :=
        if 30 < (st.recentTranscripts ++ [(now, text, source)]).length then
          (st.recentTranscripts ++ [(now, text, source)]).drop
            ((st.recentTranscripts ++ [(now, text, source)]).length - 30)
        else st.recentTranscripts ++ [(now, text, source)] },
   (if st.recording ∧ 4 ≤ pyWordCount text then
      [WorkerEvent.memoryAdd (toUpperStr source ++ ": " ++ text) "audio"] else []) ++
   (if st.autoAnswer ∧ source = "system" ∧ isQuestion text = true then
      [WorkerEvent.questionDetected text] else []))

/-- The transcript worker draining the queue. -/
def drainWorker (now : ℚ) (st : MonitorState) : MonitorState × List WorkerEvent :=
  match st.queue with
  | none => (st, [])
  | some items =>
    items.foldl
      (fun acc item =>
        ((processTranscript now acc.1 item.1 item.2).1,
         acc.2 ++ (processTranscript now acc.1 item.1 item.2).2))
      ({ st with queue := some [] }, [])

/-- Claim C10 (confirmed): a `(text, source)` item delivered while the
monitor is not running is discarded whole — the state (queue and ring
included) is unchanged and no broadcast fires, so any later worker
drain behaves exactly as if the item never arrived: nothing reaches
the ring, memory, or question detection. -/
theorem transcript_dropped_when_not_running (st : MonitorState) (hasCb : Bool)
    (text source : String) (h : st.running = false) :
    handleTranscript st hasCb text source = (st, []) ∧
    ∀ now : ℚ, drainWorker now (handleTranscript st hasCb text source).1 =
      drainWorker now st := by
  have h1 : handleTranscript st hasCb text source = (st, []) := by
    unfold handleTranscript
    rw [h]
    simp
  exact ⟨h1, fun now => by rw [h1]⟩

/-- Witness for C10: a stopped monitor with a pending empty queue
drops the item `("hi there", "system")` with no effect. -/
theorem transcript_dropped_when_not_running_witness :
    handleTranscript ⟨false, true, true, some [], [], ""⟩ true "hi there" "system" =
      (⟨false, true, true, some [], [], ""⟩, []) :=
  (transcript_dropped_when_not_running ⟨false, true, true, some [], [], ""⟩
    true "hi there" "system" rfl).1

end GoodListener
